import Mathlib

/-!
Shallow embedding of `configure.py` from the openinput repository.

The script is a build-configuration generator: it resolves a target
descriptor, resolves and validates a cross toolchain, probes git for a
version string and a dirty flag, and writes a ninja build file.

Python strings are modelled as Lean `String`; the Python string methods
used by the script (`split`, `replace`, `strip`, `join` over
`filter(None, ...)`) are given explicit character-level definitions below
so that everything evaluates by kernel reduction.  Effects (filesystem
lookup of executables via `shutil.which`, subprocess calls to git, the
output file) are modelled by explicit parameters: an oracle
`which : String → Bool`, a `GitEnv` record of the subprocess outputs, and
the emitted ninja document as a `List NinjaStmt`.
-/

namespace Openinput

/-- Python whitespace, as used by `str.strip()` with no argument. -/
def isPySpace (c : Char) : Bool :=
  c = ' ' || c = '\t' || c = '\n' || c = '\r' || c = '\x0b' || c = '\x0c'

/-- Python `s.strip()`: remove leading and trailing whitespace. -/
def pyStrip (s : String) : String :=
  String.mk (((s.toList.dropWhile isPySpace).reverse.dropWhile isPySpace).reverse)

/-- Auxiliary for `pySplitDot`: accumulates the current segment (reversed). -/
def splitDotAux : List Char → List Char → List String
  | [], acc => [String.mk acc.reverse]
  | c :: cs, acc =>
      if c = '.' then String.mk acc.reverse :: splitDotAux cs []
      else splitDotAux cs (c :: acc)

/-- Python `s.split('.')`: always returns a non-empty list, with empty
segments kept (e.g. between consecutive dots). -/
def pySplitDot (s : String) : List String :=
  splitDotAux s.toList []

/-- Python `s.replace('.', '-')` (single-character pattern). -/
def pyReplaceDotDash (s : String) : String :=
  String.mk (s.toList.map (fun c => if c = '.' then '-' else c))

/-- Python `sep.join(filter(None, xs))`: empty strings are dropped, the
rest are joined with the separator; the empty list joins to `""`. -/
def joinFilter (sep : String) (xs : List String) : String :=
  match xs.filter (fun s => s ≠ "") with
  | [] => ""
  | y :: ys => ys.foldl (fun acc s => acc ++ sep ++ s) y

/-- Does the string start with a slash (a POSIX absolute path)? -/
def startsWithSlash (s : String) : Bool :=
  s.toList.head? = some '/'

/-- Does the string end with a slash? -/
def endsWithSlash (s : String) : Bool :=
  s.toList.getLast? = some '/'

/-- POSIX `os.path.join(a, b)`: an absolute second component discards the
first; otherwise the two are joined with a slash unless one is already
there or the first component is empty. -/
def osPathJoin (a b : String) : String :=
  if startsWithSlash b then b
  else if a = "" || endsWithSlash a then a ++ b
  else a ++ "/" ++ b

/-- The target descriptor interface consumed by `BuildSystemBuilder`
(`build_targets.BuildConfiguration`): declared name, source list, flags,
default cross-toolchain prefix, binary extension, and the two
image-generation flags. -/
structure Target where
  name : String
  source : List String
  c_flags : List String
  ld_flags : List String
  cross_toolchain : String
  bin_extension : String
  generate_bin : Bool
  generate_hex : Bool
deriving DecidableEq

/-- Toolchain resolution from `BuildSystemBuilder.__init__` lines 94-98:
`self._cross_toolchain = cross_toolchain` followed by
`if not self._cross_toolchain: self._cross_toolchain = self._target.cross_toolchain`.
The CLI value is `Optional[str]`; both `None` and the empty string are
falsy in Python, so both fall back to the descriptor default. -/
def resolve_cross_toolchain (cli : Option String) (dflt : String) : String :=
  match cli with
  | none => dflt
  | some s => if s = "" then dflt else s

/-- `self._tool = lambda x: '-'.join(filter(None, [self._cross_toolchain, x]))`
(line 111): effective tool name under the resolved toolchain. -/
def _tool (ct : String) (x : String) : String :=
  joinFilter "-" [ct, x]

/-- `BuildSystemBuilder._REQUIRED_TOOLS` (lines 68-72). -/
def _REQUIRED_TOOLS : List String :=
  ["gcc", "objcopy", "size"]

/-- The loop body of `_validate_toolchain` (lines 275-278): check each
tool in order, failing at the first whose effective name is not found by
the `which` oracle (`shutil.which`). -/
def validateTools (ct : String) (which : String → Bool) : List String → Except String Unit
  | [] => .ok ()
  | t :: rest =>
      if which (_tool ct t) then validateTools ct which rest
      else .error ("Invalid toolchain: " ++ _tool ct t ++ " not found")

/-- `BuildSystemBuilder._validate_toolchain` (lines 271-278), minus the
non-fatal trailing-hyphen warning, which does not affect the outcome. -/
def _validate_toolchain (ct : String) (which : String → Bool) : Except String Unit :=
  validateTools ct which _REQUIRED_TOOLS

/-- One statement of the emitted ninja document, as produced through
`ninja_syntax.Writer`: comments, blank lines, variable declarations, rule
declarations (only the command template is retained; depfile/description
do not affect any property below) and build edges. -/
inductive NinjaStmt where
  | comment (text : String)
  | newline
  | var (name value : String)
  | rule (name command : String)
  | build (outputs : List String) (ruleName : String) (inputs : List String)
deriving DecidableEq

/-- Helper `src` from `write_ninja` line 144:
`os.path.join('$root', 'src', f)`. -/
def srcPath (f : String) : String :=
  osPathJoin (osPathJoin "$root" "src") f

/-- Helper `built` from line 145: `os.path.join('$builddir', f)`. -/
def built (f : String) : String :=
  osPathJoin "$builddir" f

/-- Helper `remove_ext` from line 146: `file.split('.')[0]`, i.e.
everything before the first dot (the whole string when there is none). -/
def remove_ext (file : String) : String :=
  (pySplitDot file).headD ""

/-- The object-file output of the compile edge for one source file
(line 148): `built(f'{remove_ext(file)}.o')`. -/
def objOf (file : String) : String :=
  built (remove_ext file ++ ".o")

/-- The compile edge emitted by the helper `cc` (lines 147-149). -/
def ccEdge (file : String) : NinjaStmt :=
  .build [objOf file] "cc" [srcPath file]

/-- Helper `extension` from lines 150-152:
`built(os.path.join('out', '.'.join(filter(None, [file, ext]))))`. -/
def extension (file ext : String) : String :=
  built (osPathJoin "out" (joinFilter "." [file, ext]))

/-- Helper `binary` from line 153: `extension(file, self._target.bin_extension)`. -/
def binary (t : Target) (file : String) : String :=
  extension file t.bin_extension

/-- The output base name, `out_name`, from lines 198-203.  Note: the
conditional at line 202 is `'dirty' if self._is_git_dirty else None`; the
guard is the bound method object `self._is_git_dirty`, not a call to it,
and a bound method is always truthy in Python, so the dirty segment is
always included.  The probe result is taken as a parameter here to record
that it is never consulted. -/
def out_name (t : Target) (version : String) (dirty : Option Bool) : String :=
  joinFilter "-" ["openinput", t.name, pyReplaceDotDash version, "dirty"]

/-- `BuildSystemBuilder.write_ninja` (lines 113-214): the sequence of
statements written through `ninja_syntax.Writer`, in order.  The `root`
and `builddir` parameters are `self._root` and `self._builddir`; `ct` is
the resolved cross-toolchain prefix; `this_file` is `self._this_file_name`.
Python iterates `set(self._target.source)` in an unspecified order; the
model fixes one deduplicated order with `List.dedup` (no property below
depends on which order is chosen). -/
def write_ninja (t : Target) (root builddir ct this_file version : String)
    (dirty : Option Bool) : List NinjaStmt :=
  [ .comment ("build file automatically generated by " ++ this_file ++
      ", do not edit manually!"),
    .newline,
    .var "ninja_required_version" "1.3",
    .newline,
    .var "root" root,
    .var "builddir" builddir,
    .var "cc" (_tool ct "gcc"),
    .var "ar" (_tool ct "ar"),
    .var "objcopy" (_tool ct "objcopy"),
    .var "size" (_tool ct "size"),
    .var "c_flags" (joinFilter " " t.c_flags),
    .var "ld_flags" (joinFilter " " t.ld_flags),
    .newline,
    .rule "cc" "$cc -MMD -MT $out -MF $out.d $c_flags -c $in -o $out",
    .newline,
    .rule "ar" "rm -f $out && $ar crs $out $in",
    .newline,
    .rule "link" "$cc $ld_flags -o $out $in $libs",
    .newline ]
  ++ (if t.generate_bin then [.rule "bin" "$objcopy -O binary $in $out"] else [])
  ++ (if t.generate_hex then [.rule "hex" "$objcopy -O ihex $in $out"] else [])
  ++ (t.source.dedup.map ccEdge)
  ++ [ .newline,
       .build [binary t (out_name t version dirty)] "link" (t.source.dedup.map objOf),
       .newline ]
  -- lines 209-214: BOTH post-processing edges are guarded by
  -- `self._target.generate_bin`; the hex edge at line 212 is not guarded
  -- by generate_hex.
  ++ (if t.generate_bin then
        [.build [extension (out_name t version dirty) "bin"] "bin"
           [binary t (out_name t version dirty)],
         .newline]
      else [])
  ++ (if t.generate_bin then
        [.build [extension (out_name t version dirty) "hex"] "hex"
           [binary t (out_name t version dirty)],
         .newline]
      else [])

/-- The whole configuration run as far as the claims need it: resolve the
toolchain (lines 94-98), validate it (line 98), and only then emit the
document (`write_ninja` is only reached when validation did not exit). -/
def configure (t : Target) (cli : Option String) (which : String → Bool)
    (root builddir this_file version : String) (dirty : Option Bool) :
    Except String (List NinjaStmt) :=
  let ct := resolve_cross_toolchain cli t.cross_toolchain
  match _validate_toolchain ct which with
  | .error e => .error e
  | .ok _ => .ok (write_ninja t root builddir ct this_file version dirty)

/-- Outputs of every build edge of a document, in order. -/
def buildOutputs (doc : List NinjaStmt) : List String :=
  doc.flatMap (fun s => match s with
    | .build outs _ _ => outs
    | _ => [])

/-- The (outputs, inputs) pairs of the edges using a given rule name. -/
def edgesWithRule (doc : List NinjaStmt) (r : String) : List (List String × List String) :=
  doc.filterMap (fun s => match s with
    | .build outs rn ins => if rn = r then some (outs, ins) else none
    | _ => none)

/-- Checks that every build edge names a rule declared earlier in the
document; `declared` accumulates the rule names seen so far. -/
def rulesRespected (doc : List NinjaStmt) (declared : List String) : Bool :=
  match doc with
  | [] => true
  | .rule n _ :: rest => rulesRespected rest (n :: declared)
  | .build _ rn _ :: rest => declared.contains rn && rulesRespected rest declared
  | _ :: rest => rulesRespected rest declared

/-! ### Version probe (`BuildSystemBuilder.version`, `_is_git_dirty`)

The four `subprocess.check_output` git invocations are modelled by a
record of their decoded outputs; `present = false` models the
`FileNotFoundError` raised on any invocation when git is not installed
(the script never sees partial availability: the same executable lookup
fails for every call). -/

/-- The git environment the script shells out to. -/
structure GitEnv where
  /-- Is the git executable installed?  `false` makes every invocation
  raise `FileNotFoundError`. -/
  present : Bool
  /-- Output of `git rev-list --tags --max-count=1`. -/
  tagCommit : String
  /-- Output of `git describe`. -/
  describeOut : String
  /-- Output of `git rev-list --count HEAD`. -/
  countOut : String
  /-- Output of `git rev-parse --short HEAD`. -/
  shortOut : String
  /-- Output of `git diff --stat`. -/
  diffStat : String
deriving DecidableEq

/-- `BuildSystemBuilder.version` (lines 216-230): a tag-relative describe
when some tag reaches the history, else `r` + revision count + `.` +
short id, and the sentinel when git is absent. -/
def version (env : GitEnv) : String :=
  if env.present then
    if pyStrip env.tagCommit ≠ "" then pyStrip env.describeOut
    else "r" ++ pyStrip env.countOut ++ "." ++ pyStrip env.shortOut
  else "UNKNOWN"

/-- `BuildSystemBuilder._is_git_dirty` (lines 247-251):
`bool(output.strip())` of `git diff --stat`, or `None` when git is
absent. -/
def _is_git_dirty (env : GitEnv) : Option Bool :=
  if env.present then some (pyStrip env.diffStat ≠ "") else none

/-! ### Target registry (`BuildSystemBuilder.get_targets`)

The externally supplied descriptor catalog is a class hierarchy below
`build_targets.BuildConfiguration`.  A class is a declared name plus the
ordered list of its direct subclasses (`cls.__subclasses__()`). -/

/-- One class of the descriptor catalog. -/
inductive PyClass where
  | node (name : String) (subclasses : List PyClass)

/-- The declared `name` attribute of a class. -/
def PyClass.name : PyClass → String
  | .node n _ => n

/-- The direct subclasses of a class, in registration order. -/
def PyClass.subclasses : PyClass → List PyClass
  | .node _ cs => cs

/-- Python dict assignment `d[k] = v`: overwrites the value in place when
the key is present, appends a new entry otherwise. -/
def dictInsert (d : List (String × PyClass)) (k : String) (v : PyClass) :
    List (String × PyClass) :=
  if d.any (fun p => p.1 = k) then
    d.map (fun p => if p.1 = k then (k, v) else p)
  else d ++ [(k, v)]

mutual

/-- The body of the nested function `_add` (lines 285-289): register the
class when its name is non-empty, then recurse into its own subclasses. -/
def addClass (d : List (String × PyClass)) : PyClass → List (String × PyClass)
  | .node n cs => addList (if n = "" then d else dictInsert d n (.node n cs)) cs
termination_by c => sizeOf c

/-- `_add` folded over a list of sibling classes, in order. -/
def addList (d : List (String × PyClass)) : List PyClass → List (String × PyClass)
  | [] => d
  | c :: cs => addList (addClass d c) cs
termination_by l => sizeOf l

end

/-- `BuildSystemBuilder.get_targets` (lines 280-293): start from an empty
dict and run `_add` on the root class (the root itself is never
registered, only its descendants are). -/
def get_targets (root : PyClass) : List (String × PyClass) :=
  addList [] root.subclasses

mutual

/-- The order in which `_add` visits a class and its descendants: the
class first, then its subtree, depth-first. -/
def visitClass : PyClass → List PyClass
  | .node n cs => .node n cs :: visitList cs
termination_by c => sizeOf c

/-- Visit order of a list of sibling classes. -/
def visitList : List PyClass → List PyClass
  | [] => []
  | c :: cs => visitClass c ++ visitList cs
termination_by l => sizeOf l

end

/-- The descendants of the root, in visit order. -/
def reachable (root : PyClass) : List PyClass :=
  visitList root.subclasses

/-- Python dict lookup: the value stored at a key.  Keys are unique
inside a dict, so the first match is the value. -/
def lookupK (d : List (String × PyClass)) (k : String) : Option PyClass :=
  match d with
  | [] => none
  | (k', v) :: rest => if k' = k then some v else lookupK rest k

/-- The key list of a mapping. -/
def keys (d : List (String × PyClass)) : List String :=
  d.map Prod.fst

/-! ### Concrete descriptors used by witnesses and counterexamples -/

/-- A catalog with two distinct classes declaring the name dup (one a
nested grandchild of the root, one a direct child) and one class with an
empty name. -/
def catalogRoot : PyClass :=
  .node "BuildConfiguration"
    [ .node "a" [.node "dup" []],
      .node "dup" [.node "" []] ]

/-- A descriptor with neither post-processing image requested. -/
def uhidTarget : Target :=
  { name := "linux-uhid", source := ["platform/linux-uhid.c"], c_flags := [],
    ld_flags := [], cross_toolchain := "", bin_extension := "",
    generate_bin := false, generate_hex := false }

/-- A descriptor requesting only the raw-binary image. -/
def binOnlyTarget : Target :=
  { name := "stm32", source := ["main.c"], c_flags := [], ld_flags := [],
    cross_toolchain := "arm-none-eabi", bin_extension := "elf",
    generate_bin := true, generate_hex := false }

/-- A descriptor requesting only the Intel-hex image. -/
def hexOnlyTarget : Target :=
  { name := "avr", source := ["main.c"], c_flags := [], ld_flags := [],
    cross_toolchain := "avr", bin_extension := "elf",
    generate_bin := false, generate_hex := true }

/-- A descriptor with two distinct sources sharing the text before the
first dot. -/
def collideTarget : Target :=
  { name := "t", source := ["a.c", "a.s"], c_flags := [], ld_flags := [],
    cross_toolchain := "", bin_extension := "elf",
    generate_bin := false, generate_hex := false }

end Openinput

namespace Openinput

/-! ## Claims -/

/-- C1: the claim says the dirty token appears in the output base name if
and only if the dirty flag is true.  In the code the guard at line 202 is
the bound method `self._is_git_dirty` rather than a call to it, and a
bound method is always truthy, so the dirty token is appended for every
value of the dirty probe — including an explicitly clean tree.  Here, at
target `linux-uhid` and version `1.2.3`, every probe value (clean, dirty,
unknown) produces a name ending in the dirty token. -/
theorem C1_dirty_token_always_appended (d : Option Bool) :
    out_name uhidTarget "1.2.3" d = "openinput-linux-uhid-1-2-3-dirty" :=
  rfl

/-- C2: the claim says the hex edge is present iff the descriptor's
Intel-hex flag is true, independently of the raw-binary flag.  In the
code both post-processing edges are guarded by `generate_bin`
(lines 209 and 212), so a hex-only descriptor gets no hex edge and a
bin-only descriptor gets one. -/
theorem C2_hex_edge_follows_bin_flag :
    (hexOnlyTarget.generate_hex = true ∧ hexOnlyTarget.generate_bin = false ∧
      edgesWithRule
        (write_ninja hexOnlyTarget "." "build" "avr" "configure.py" "1.2.3" (some false))
        "hex" = []) ∧
    (binOnlyTarget.generate_hex = false ∧ binOnlyTarget.generate_bin = true ∧
      edgesWithRule
        (write_ninja binOnlyTarget "." "build" "arm-none-eabi" "configure.py" "1.2.3" (some false))
        "hex" ≠ []) := by
  decide

/-- C3: the claim says every edge names a rule declared earlier, for
every combination of the two image flags.  With `generate_bin = true` and
`generate_hex = false` the code emits a hex edge (line 212 is guarded by
`generate_bin`) while the hex rule declaration (line 184) is guarded by
`generate_hex`, so the emitted document contains an edge whose rule is
never declared. -/
theorem C3_hex_edge_rule_undeclared :
    binOnlyTarget.generate_bin = true ∧ binOnlyTarget.generate_hex = false ∧
    rulesRespected
      (write_ninja binOnlyTarget "." "build" "arm-none-eabi" "configure.py" "1.2.3" (some false))
      [] = false := by
  decide

/-- C9 counterexample: the claim says a caller-supplied prefix wins
unconditionally, even when it is the empty string.  The code tests
`if not self._cross_toolchain` (line 96), and the empty string is falsy
in Python, so an explicitly supplied empty prefix is replaced by the
descriptor default. -/
theorem C9_counterexample :
    resolve_cross_toolchain (some "") "arm-none-eabi" = "arm-none-eabi" ∧
    ("arm-none-eabi" : String) ≠ "" := by
  decide

/-- C9 amended: a caller-supplied non-empty prefix wins; when the caller
supplies nothing, or supplies the empty string, the descriptor's declared
default prefix is used. -/
theorem C9_resolution (s dflt : String) (h : s ≠ "") :
    resolve_cross_toolchain (some s) dflt = s ∧
    resolve_cross_toolchain (some "") dflt = dflt ∧
    resolve_cross_toolchain none dflt = dflt := by
  refine ⟨?_, ?_, rfl⟩ <;> simp [resolve_cross_toolchain, h]

/-- Witness for C9 at a concrete prefix and default. -/
theorem C9_resolution_witness :
    resolve_cross_toolchain (some "arm-none-eabi") "riscv64-elf" = "arm-none-eabi" ∧
    resolve_cross_toolchain (some "") "riscv64-elf" = "riscv64-elf" ∧
    resolve_cross_toolchain none "riscv64-elf" = "riscv64-elf" :=
  C9_resolution "arm-none-eabi" "riscv64-elf" (by decide)

/-- C8: the version probe uses the tag-relative description when some tag
reaches the current revision, otherwise synthesizes `r` + revision count
+ `.` + short id; when the git executable is absent both the version and
the dirty probe degrade (sentinel string, unknown flag) instead of
failing. -/
theorem C8_version_probe (env : GitEnv) :
    (env.present = true → pyStrip env.tagCommit ≠ "" →
      version env = pyStrip env.describeOut) ∧
    (env.present = true → pyStrip env.tagCommit = "" →
      version env = "r" ++ pyStrip env.countOut ++ "." ++ pyStrip env.shortOut) ∧
    (env.present = false → version env = "UNKNOWN" ∧ _is_git_dirty env = none) := by
  refine ⟨fun hp ht => ?_, fun hp ht => ?_, fun hp => ⟨?_, ?_⟩⟩ <;>
    simp [version, _is_git_dirty, hp] <;> simp [ht]

/-- Witness for C8: five revisions with short id abc123 and no tag give
r5.abc123; an absent git executable gives the sentinel and the unknown
dirty value. -/
theorem C8_version_probe_witness :
    version ⟨true, "", "", "5", "abc123", ""⟩ = "r5.abc123" ∧
    version ⟨false, "", "", "", "", ""⟩ = "UNKNOWN" ∧
    _is_git_dirty ⟨false, "", "", "", "", ""⟩ = none := by
  refine ⟨?_, ?_, ?_⟩
  · have h := (C8_version_probe ⟨true, "", "", "5", "abc123", ""⟩).2.1 rfl (by decide)
    rw [h]; decide
  · exact ((C8_version_probe ⟨false, "", "", "", "", ""⟩).2.2 rfl).1
  · exact ((C8_version_probe ⟨false, "", "", "", "", ""⟩).2.2 rfl).2

/-- Validation succeeds exactly when every tool of the checked list
resolves under the oracle. -/
theorem validateTools_ok_iff (ct : String) (which : String → Bool) (ts : List String) :
    validateTools ct which ts = .ok () ↔ ∀ t ∈ ts, which (_tool ct t) = true := by
  induction ts with
  | nil => simp [validateTools]
  | cons t rest ih =>
      by_cases h : which (_tool ct t) = true
      · simp [validateTools, h, ih]
      · simp [validateTools, h]

/-- A validation failure names a tool of the checked list that the oracle
does not resolve. -/
theorem validateTools_error (ct : String) (which : String → Bool) (ts : List String)
    (e : String) (he : validateTools ct which ts = .error e) :
    ∃ t ∈ ts, which (_tool ct t) = false ∧
      e = "Invalid toolchain: " ++ _tool ct t ++ " not found" := by
  induction ts with
  | nil => simp [validateTools] at he
  | cons t rest ih =>
      by_cases h : which (_tool ct t) = true
      · simp only [validateTools, h, if_true] at he
        obtain ⟨t', ht', hw, hee⟩ := ih he
        exact ⟨t', List.mem_cons_of_mem _ ht', hw, hee⟩
      · simp only [validateTools, h, if_false] at he
        refine ⟨t, List.mem_cons_self .., by simpa using h, by simpa using he.symm⟩

/-- C4 counterexample: an oracle under which every executable except
`arm-none-eabi-ar` exists.  The claim says validation checks four tools,
archiver included, and fails when one is missing; the code checks only
gcc, objcopy and size (lines 68-72), so validation succeeds although the
archiver is absent. -/
theorem C4_counterexample :
    _validate_toolchain "arm-none-eabi"
      (fun n => !(n == "arm-none-eabi-ar")) = .ok () ∧
    (fun n => !(n == "arm-none-eabi-ar")) (_tool "arm-none-eabi" "ar") = false :=
  ⟨rfl, rfl⟩

/-- C4 amended: toolchain validation checks exactly the three required
tools — compiler driver, object-copy utility and size-reporting utility,
the archiver is not validated — each composed from the effective prefix;
validation succeeds iff all three resolve, a failure names the missing
effective tool name, and a failing run never reaches the build-graph
emission. -/
theorem C4_toolchain_validation (ct : String) (which : String → Bool) :
    _REQUIRED_TOOLS = ["gcc", "objcopy", "size"] ∧
    (_validate_toolchain ct which = .ok () ↔
      ∀ t ∈ _REQUIRED_TOOLS, which (_tool ct t) = true) ∧
    (∀ e, _validate_toolchain ct which = .error e →
      ∃ t ∈ _REQUIRED_TOOLS, which (_tool ct t) = false ∧
        e = "Invalid toolchain: " ++ _tool ct t ++ " not found") ∧
    (∀ (t : Target) (cli : Option String) (root builddir tf ver : String)
        (d : Option Bool) (e : String),
      resolve_cross_toolchain cli t.cross_toolchain = ct →
      _validate_toolchain ct which = .error e →
      configure t cli which root builddir tf ver d = .error e) := by
  refine ⟨rfl, validateTools_ok_iff ct which _REQUIRED_TOOLS,
    fun e he => validateTools_error ct which _REQUIRED_TOOLS e he,
    fun t cli root builddir tf ver d e hct he => ?_⟩
  simp [configure, hct, he]

/-- Witness for C4 amended: with every tool present validation succeeds;
with size missing it fails naming arm-none-eabi-size and configuration
propagates the error. -/
theorem C4_toolchain_validation_witness :
    (_validate_toolchain "arm-none-eabi" (fun _ => true) = .ok () ↔
      ∀ t ∈ _REQUIRED_TOOLS, (fun _ => true) (_tool "arm-none-eabi" t) = true) ∧
    configure binOnlyTarget none (fun n => !(n == "arm-none-eabi-size"))
      "." "build" "configure.py" "1.2.3" (some false) =
      .error "Invalid toolchain: arm-none-eabi-size not found" := by
  constructor
  · exact (C4_toolchain_validation "arm-none-eabi" (fun _ => true)).2.1
  · exact (C4_toolchain_validation "arm-none-eabi"
      (fun n => !(n == "arm-none-eabi-size"))).2.2.2 binOnlyTarget none
      "." "build" "configure.py" "1.2.3" (some false) _ rfl rfl

/-! ### Decomposition of the emitted document -/

/-- `edgesWithRule` distributes over document concatenation. -/
theorem edgesWithRule_append (a b : List NinjaStmt) (r : String) :
    edgesWithRule (a ++ b) r = edgesWithRule a r ++ edgesWithRule b r := by
  simp [edgesWithRule, List.filterMap_append]

/-- A block of compile edges contributes nothing under any other rule. -/
theorem edgesWithRule_ccEdges_ne (l : List String) (r : String) (h : ¬ ("cc" = r)) :
    edgesWithRule (l.map ccEdge) r = [] := by
  induction l with
  | nil => rfl
  | cons f fs ih => simp [edgesWithRule, ccEdge, h]

/-- The compile-edge block, read back through `edgesWithRule`. -/
theorem edgesWithRule_ccEdges (l : List String) :
    edgesWithRule (l.map ccEdge) "cc" =
      l.map (fun f => ([objOf f], [srcPath f])) := by
  induction l with
  | nil => rfl
  | cons f fs ih => simpa [edgesWithRule, ccEdge] using ih

/-- The compile edges of the emitted document: one per deduplicated
source, producing the object under the build directory from the source
under the root. -/
theorem edgesWithRule_write_ninja_cc (t : Target)
    (root builddir ct tf ver : String) (d : Option Bool) :
    edgesWithRule (write_ninja t root builddir ct tf ver d) "cc" =
      t.source.dedup.map (fun f => ([objOf f], [srcPath f])) := by
  simp only [write_ninja, edgesWithRule_append, edgesWithRule_ccEdges]
  cases t.generate_bin <;> cases t.generate_hex <;> simp [edgesWithRule]

/-- The single link edge of the emitted document. -/
theorem edgesWithRule_write_ninja_link (t : Target)
    (root builddir ct tf ver : String) (d : Option Bool) :
    edgesWithRule (write_ninja t root builddir ct tf ver d) "link" =
      [([binary t (out_name t ver d)], t.source.dedup.map objOf)] := by
  simp only [write_ninja, edgesWithRule_append]
  rw [edgesWithRule_ccEdges_ne _ _ (by decide)]
  cases t.generate_bin <;> cases t.generate_hex <;> simp [edgesWithRule]

/-- C7: the emitted document contains exactly one compile edge per
distinct source path of the descriptor: the compile edges are in
bijection with the deduplicated source list, which has no duplicates and
holds exactly the paths of the original source list. -/
theorem C7_one_compile_edge_per_distinct_source (t : Target)
    (root builddir ct tf ver : String) (d : Option Bool) (f : String) :
    edgesWithRule (write_ninja t root builddir ct tf ver d) "cc" =
      t.source.dedup.map (fun g => ([objOf g], [srcPath g])) ∧
    t.source.dedup.Nodup ∧
    (f ∈ t.source.dedup ↔ f ∈ t.source) :=
  ⟨edgesWithRule_write_ninja_cc t root builddir ct tf ver d,
   t.source.nodup_dedup, List.mem_dedup⟩

/-! ### String-level facts used for output naming -/

/-- Left cancellation for string append. -/
theorem string_append_left_cancel (a x y : String) (h : a ++ x = a ++ y) : x = y := by
  apply String.ext
  have hd := congrArg String.data h
  simp only [String.data_append] at hd
  exact List.append_cancel_left hd

/-- Right cancellation for string append. -/
theorem string_append_right_cancel (a x y : String) (h : x ++ a = y ++ a) : x = y := by
  apply String.ext
  have hd := congrArg String.data h
  simp only [String.data_append] at hd
  exact List.append_cancel_right hd

/-- The head of an appended string is the head of its first part. -/
theorem head_toList_append (a b : String) (c : Char) (rest : List Char)
    (h : a.toList = c :: rest) : (a ++ b).toList.head? = some c := by
  have hd : (a ++ b).data = a.data ++ b.data := String.data_append a b
  simp only [String.toList] at h ⊢
  rw [hd, h]
  rfl

/-- A string whose head is not a slash does not start with a slash. -/
theorem startsWithSlash_eq_false (s : String) (c : Char)
    (h : s.toList.head? = some c) (hc : ¬ c = '/') :
    startsWithSlash s = false := by
  unfold startsWithSlash
  rw [h]
  simp [hc]

/-- A string that starts with a slash has a slash at its head. -/
theorem head_of_startsWithSlash (s : String) (h : startsWithSlash s = true) :
    s.toList.head? = some '/' := by
  simpa [startsWithSlash] using h

/-- Folding the separator-join step only ever appends to the accumulator. -/
theorem foldl_sep_extract (sep : String) (ys : List String) (acc : String) :
    ∃ z, ys.foldl (fun a s => a ++ sep ++ s) acc = acc ++ z := by
  induction ys generalizing acc with
  | nil => exact ⟨"", by simp⟩
  | cons y ys ih =>
      obtain ⟨z, hz⟩ := ih (acc ++ sep ++ y)
      refine ⟨sep ++ y ++ z, ?_⟩
      rw [List.foldl_cons, hz]
      apply String.ext
      simp [String.data_append]

/-- A join whose first element is non-empty starts with that element. -/
theorem joinFilter_cons_ne (sep y : String) (ys : List String) (hy : ¬ y = "") :
    ∃ z, joinFilter sep (y :: ys) = y ++ z := by
  unfold joinFilter
  have hcond : (decide (y ≠ "")) = true := by simp [hy]
  simp only [List.filter_cons, hcond, if_true]
  exact foldl_sep_extract sep _ y

/-- The output base name always extends the product identifier. -/
theorem out_name_head (t : Target) (ver : String) (d : Option Bool) :
    ∃ z, out_name t ver d = "openinput" ++ z := by
  unfold out_name
  exact joinFilter_cons_ne "-" "openinput" _ (by decide)

/-- The output base name is non-empty and relative (it starts with the
letter o of the product identifier). -/
theorem out_name_props (t : Target) (ver : String) (d : Option Bool) :
    ¬ out_name t ver d = "" ∧ startsWithSlash (out_name t ver d) = false := by
  obtain ⟨z, hz⟩ := out_name_head t ver d
  have hh : (out_name t ver d).toList.head? = some 'o' := by
    rw [hz]; exact head_toList_append "openinput" z 'o' _ rfl
  constructor
  · intro hcon
    rw [hcon] at hh
    simp at hh
  · exact startsWithSlash_eq_false _ 'o' hh (by decide)

/-- With an empty binary extension, the dot join degenerates and the link
output is the bare base name under the out subdirectory of the build
directory — no trailing dot separator. -/
theorem binary_empty_ext (t : Target) (h : t.bin_extension = "") (x : String)
    (hx : ¬ x = "") (hsw : startsWithSlash x = false) :
    binary t x = "$builddir" ++ "/" ++ ("out" ++ "/" ++ x) := by
  unfold binary extension
  rw [h]
  have hjf : joinFilter "." [x, ""] = x := by
    unfold joinFilter
    simp [List.filter_cons, hx]
  rw [hjf]
  have h1 : osPathJoin "out" x = "out" ++ "/" ++ x := by
    unfold osPathJoin
    rw [hsw]
    simp [endsWithSlash]
  rw [h1]
  unfold built osPathJoin
  have h2 : startsWithSlash ("out" ++ "/" ++ x) = false :=
    startsWithSlash_eq_false _ 'o'
      (head_toList_append ("out" ++ "/") x 'o' _ rfl) (by decide)
  rw [h2]
  simp [endsWithSlash]

/-- C10: when the descriptor's binary extension is empty, the link edge's
output is exactly the base name under the out subdirectory of the build
directory, with no trailing dot. -/
theorem C10_empty_extension_link_output (t : Target)
    (root builddir ct tf ver : String) (d : Option Bool)
    (h : t.bin_extension = "") :
    edgesWithRule (write_ninja t root builddir ct tf ver d) "link" =
      [(["$builddir" ++ "/" ++ ("out" ++ "/" ++ out_name t ver d)],
        t.source.dedup.map objOf)] := by
  obtain ⟨hne, hsw⟩ := out_name_props t ver d
  rw [edgesWithRule_write_ninja_link t root builddir ct tf ver d,
    binary_empty_ext t h (out_name t ver d) hne hsw]

/-- Witness for C10 at the linux-uhid descriptor, whose binary extension
is empty. -/
theorem C10_empty_extension_witness :
    edgesWithRule
      (write_ninja uhidTarget "." "build" "" "configure.py" "1.2.3" none) "link" =
      [(["$builddir" ++ "/" ++ ("out" ++ "/" ++ out_name uhidTarget "1.2.3" none)],
        uhidTarget.source.dedup.map objOf)] :=
  C10_empty_extension_link_output uhidTarget "." "build" "" "configure.py" "1.2.3"
    none rfl

/-- Mapping a first-dot stem to its object path is injective: the two
paths agree only when the stems agree, whether the stems are relative
(placed under the build directory) or absolute (kept as they are). -/
theorem built_o_injective : Function.Injective (fun s : String => built (s ++ ".o")) := by
  have hbd : (decide ("$builddir" = "") || endsWithSlash "$builddir") = false := rfl
  intro x y hxy
  simp only [built, osPathJoin, hbd, Bool.false_eq_true, if_false] at hxy
  by_cases hx : startsWithSlash (x ++ ".o") = true <;>
    by_cases hy : startsWithSlash (y ++ ".o") = true
  · rw [if_pos hx, if_pos hy] at hxy
    exact string_append_right_cancel ".o" x y hxy
  · rw [if_pos hx, if_neg hy] at hxy
    have h1 := head_of_startsWithSlash _ hx
    have h2 : (x ++ ".o").toList.head? = some '$' := by
      rw [hxy]
      exact head_toList_append ("$builddir" ++ "/") (y ++ ".o") '$' _ rfl
    rw [h1] at h2
    simp at h2
  · rw [if_neg hx, if_pos hy] at hxy
    have h1 := head_of_startsWithSlash _ hy
    have h2 : (y ++ ".o").toList.head? = some '$' := by
      rw [← hxy]
      exact head_toList_append ("$builddir" ++ "/") (x ++ ".o") '$' _ rfl
    rw [h1] at h2
    simp at h2
  · rw [if_neg hx, if_neg hy] at hxy
    exact string_append_right_cancel ".o" x y
      (string_append_left_cancel ("$builddir" ++ "/") _ _ hxy)

/-- Two sources map to the same object path exactly when their first-dot
stems agree. -/
theorem objOf_eq_iff (f g : String) : objOf f = objOf g ↔ remove_ext f = remove_ext g :=
  ⟨fun h => built_o_injective h, fun h => by unfold objOf; rw [h]⟩

/-- C5 counterexample: the distinct sources a.c and a.s of one descriptor
produce two compile edges with the same output path, so the outputs of
the emitted document are not pairwise distinct: `remove_ext` keeps only
the text before the first dot, it does not merely strip the extension. -/
theorem C5_counterexample :
    ("a.c" : String) ≠ "a.s" ∧ objOf "a.c" = objOf "a.s" ∧
    ¬ (buildOutputs
        (write_ninja collideTarget "." "build" "" "configure.py" "1.2.3" (some false))).Nodup := by
  refine ⟨by decide, by decide, by decide⟩

/-- C5 amended: each compile edge's object output is the source path
truncated at its first dot with .o appended, placed under the build
directory; two sources collide exactly when those truncations agree, so
the compile-edge outputs are pairwise distinct when (and only when) the
distinct sources have pairwise distinct first-dot stems. -/
theorem C5_object_outputs (t : Target) (root builddir ct tf ver : String)
    (d : Option Bool) (f g : String)
    (h : (t.source.dedup.map remove_ext).Nodup) :
    edgesWithRule (write_ninja t root builddir ct tf ver d) "cc" =
      t.source.dedup.map (fun s => ([objOf s], [srcPath s])) ∧
    (objOf f = objOf g ↔ remove_ext f = remove_ext g) ∧
    (t.source.dedup.map objOf).Nodup := by
  refine ⟨edgesWithRule_write_ninja_cc t root builddir ct tf ver d, objOf_eq_iff f g, ?_⟩
  have hmm : t.source.dedup.map objOf =
      (t.source.dedup.map remove_ext).map (fun s => built (s ++ ".o")) := by
    rw [List.map_map]
    rfl
  rw [hmm]
  exact h.map built_o_injective

/-- Witness for C5 amended at a descriptor with a single source. -/
theorem C5_object_outputs_witness :
    edgesWithRule
      (write_ninja binOnlyTarget "." "build" "arm-none-eabi" "configure.py" "1.2.3" none)
      "cc" =
      binOnlyTarget.source.dedup.map (fun s => ([objOf s], [srcPath s])) ∧
    (objOf "a.c" = objOf "a.s" ↔ remove_ext "a.c" = remove_ext "a.s") ∧
    (binOnlyTarget.source.dedup.map objOf).Nodup :=
  C5_object_outputs binOnlyTarget "." "build" "arm-none-eabi" "configure.py" "1.2.3"
    none "a.c" "a.s" (by decide)

/-! ### Registry lemmas -/

/-- Keys after a dict assignment: the assigned key joins the key set. -/
theorem mem_keys_dictInsert (d : List (String × PyClass)) (k k' : String) (v : PyClass) :
    k' ∈ keys (dictInsert d k v) ↔ k' ∈ keys d ∨ k' = k := by
  unfold dictInsert
  by_cases hany : d.any (fun p => p.1 = k) = true
  · rw [if_pos hany]
    have hkeys : keys (d.map (fun p => if p.1 = k then (k, v) else p)) = keys d := by
      unfold keys
      rw [List.map_map]
      apply List.map_congr_left
      intro p hp
      by_cases hpk : p.1 = k
      · simp [hpk]
      · simp [hpk]
    rw [hkeys]
    have hkd : k ∈ keys d := by
      simp only [List.any_eq_true, decide_eq_true_eq] at hany
      obtain ⟨p, hp, hpk⟩ := hany
      exact List.mem_map.mpr ⟨p, hp, hpk⟩
    constructor
    · exact Or.inl
    · rintro (h | rfl)
      · exact h
      · exact hkd
  · rw [if_neg hany]
    unfold keys
    simp

/-- Unfolding of `lookupK` at an empty dict. -/
theorem lookupK_nil (k : String) : lookupK [] k = none :=
  rfl

/-- Unfolding of `lookupK` at a head entry. -/
theorem lookupK_cons (pk : String) (pv : PyClass) (rest : List (String × PyClass))
    (k : String) :
    lookupK ((pk, pv) :: rest) k = if pk = k then some pv else lookupK rest k :=
  rfl

/-- Looking up a different key skips an appended entry. -/
theorem lookupK_append_single_ne (d : List (String × PyClass)) (k k' : String)
    (v : PyClass) (h : ¬ k = k') : lookupK (d ++ [(k, v)]) k' = lookupK d k' := by
  induction d with
  | nil => simp only [List.nil_append, lookupK_cons, lookupK_nil, if_neg h]
  | cons p rest ih =>
      obtain ⟨pk, pv⟩ := p
      rw [List.cons_append, lookupK_cons, lookupK_cons, ih]

/-- Looking up a different key is unaffected by an in-place overwrite. -/
theorem lookupK_map_overwrite_ne (d : List (String × PyClass)) (k k' : String)
    (v : PyClass) (h : ¬ k = k') :
    lookupK (d.map (fun p => if p.1 = k then (k, v) else p)) k' = lookupK d k' := by
  induction d with
  | nil => rfl
  | cons p rest ih =>
      obtain ⟨pk, pv⟩ := p
      rw [List.map_cons]
      by_cases hpk : (pk, pv).1 = k
      · rw [if_pos hpk, lookupK_cons, lookupK_cons, ih]
        have hpk' : ¬ pk = k' := by
          intro hcon
          exact h (by rw [← hpk, hcon])
        rw [if_neg h, if_neg hpk']
      · rw [if_neg hpk, lookupK_cons, lookupK_cons, ih]

/-- An appended entry is found when no earlier entry has its key. -/
theorem lookupK_append_single_self (d : List (String × PyClass)) (k : String)
    (v : PyClass) (h : d.any (fun p => p.1 = k) = false) :
    lookupK (d ++ [(k, v)]) k = some v := by
  induction d with
  | nil => simp [lookupK_cons]
  | cons p rest ih =>
      obtain ⟨pk, pv⟩ := p
      rw [List.any_cons] at h
      have h1 : decide (pk = k) = false ∧ rest.any (fun p => decide (p.1 = k)) = false := by
        simpa using h
      have hpk : ¬ pk = k := by simpa using h1.1
      rw [List.cons_append, lookupK_cons, if_neg hpk]
      exact ih h1.2

/-- An in-place overwrite is found when some entry has the key. -/
theorem lookupK_map_overwrite_self (d : List (String × PyClass)) (k : String)
    (v : PyClass) (h : d.any (fun p => p.1 = k) = true) :
    lookupK (d.map (fun p => if p.1 = k then (k, v) else p)) k = some v := by
  induction d with
  | nil => simp at h
  | cons p rest ih =>
      obtain ⟨pk, pv⟩ := p
      rw [List.map_cons]
      by_cases hpk : (pk, pv).1 = k
      · rw [if_pos hpk, lookupK_cons, if_pos rfl]
      · rw [if_neg hpk, lookupK_cons, if_neg hpk]
        have hr : rest.any (fun p => p.1 = k) = true := by
          rw [List.any_cons] at h
          simpa [hpk] using h
        exact ih hr

/-- Python dict assignment stores the value at the key. -/
theorem lookupK_dictInsert_self (d : List (String × PyClass)) (k : String) (v : PyClass) :
    lookupK (dictInsert d k v) k = some v := by
  unfold dictInsert
  by_cases hany : d.any (fun p => p.1 = k) = true
  · rw [if_pos hany]
    exact lookupK_map_overwrite_self d k v hany
  · rw [if_neg hany]
    exact lookupK_append_single_self d k v (Bool.eq_false_iff.mpr hany)

/-- Python dict assignment leaves other keys untouched. -/
theorem lookupK_dictInsert_ne (d : List (String × PyClass)) (k k' : String)
    (v : PyClass) (h : ¬ k = k') :
    lookupK (dictInsert d k v) k' = lookupK d k' := by
  unfold dictInsert
  by_cases hany : d.any (fun p => p.1 = k) = true
  · rw [if_pos hany]
    exact lookupK_map_overwrite_ne d k k' v h
  · rw [if_neg hany]
    exact lookupK_append_single_ne d k k' v h

mutual

/-- Registering a class and its subtree: for a non-empty key, the stored
value becomes the last visited class of the subtree declaring that name,
the previous mapping acting as fallback. -/
theorem lookupK_addClass (d : List (String × PyClass)) (c : PyClass) (k : String)
    (hk : ¬ k = "") :
    lookupK (addClass d c) k =
      ((visitClass c).reverse.find? (fun x => decide (x.name = k))).or (lookupK d k) := by
  obtain ⟨n, cs⟩ := c
  simp only [addClass, visitClass]
  rw [lookupK_addList _ cs k hk, List.reverse_cons, List.find?_append, Option.or_assoc]
  congr 1
  by_cases hn : n = ""
  · subst hn
    rw [if_pos rfl]
    have hfind : List.find? (fun x => decide (x.name = k)) [PyClass.node "" cs] = none := by
      have hnk : decide ((PyClass.node "" cs).name = k) = false := by
        simp only [PyClass.name, decide_eq_false_iff_not]
        exact fun hcon => hk hcon.symm
      simp [List.find?, hnk]
    rw [hfind, Option.none_or]
  · rw [if_neg hn]
    by_cases hnk : n = k
    · subst hnk
      rw [lookupK_dictInsert_self]
      simp [List.find?, PyClass.name]
    · rw [lookupK_dictInsert_ne d n k _ hnk]
      have hfind : List.find? (fun x => decide (x.name = k)) [PyClass.node n cs] = none := by
        simp [List.find?, PyClass.name, hnk]
      rw [hfind, Option.none_or]
termination_by sizeOf c

/-- Registering a list of sibling subtrees, left to right. -/
theorem lookupK_addList (d : List (String × PyClass)) (l : List PyClass) (k : String)
    (hk : ¬ k = "") :
    lookupK (addList d l) k =
      ((visitList l).reverse.find? (fun x => decide (x.name = k))).or (lookupK d k) := by
  match l with
  | [] => simp [addList, visitList]
  | c :: cs =>
      simp only [addList, visitList]
      rw [lookupK_addList _ cs k hk, lookupK_addClass d c k hk,
        List.reverse_append, List.find?_append, Option.or_assoc]
termination_by sizeOf l

end

mutual

/-- Key membership after registering a class and its subtree. -/
theorem mem_keys_addClass (d : List (String × PyClass)) (c : PyClass) (k : String) :
    k ∈ keys (addClass d c) ↔
      k ∈ keys d ∨ (¬ k = "" ∧ k ∈ (visitClass c).map PyClass.name) := by
  obtain ⟨n, cs⟩ := c
  simp only [addClass, visitClass]
  rw [mem_keys_addList _ cs k]
  by_cases hn : n = ""
  · subst hn
    rw [if_pos rfl]
    simp only [List.map_cons, List.mem_cons, PyClass.name]
    by_cases hk : k = ""
    · simp [hk]
    · simp [hk]
  · rw [if_neg hn]
    rw [mem_keys_dictInsert d n k _]
    simp only [List.map_cons, List.mem_cons, PyClass.name]
    by_cases hk : k = ""
    · subst hk
      have hne : ¬ ("" : String) = n := fun hcon => hn hcon.symm
      simp [hne]
    · simp [hk, or_assoc]
termination_by sizeOf c

/-- Key membership after registering sibling subtrees. -/
theorem mem_keys_addList (d : List (String × PyClass)) (l : List PyClass) (k : String) :
    k ∈ keys (addList d l) ↔
      k ∈ keys d ∨ (¬ k = "" ∧ k ∈ (visitList l).map PyClass.name) := by
  match l with
  | [] => simp [addList, visitList]
  | c :: cs =>
      simp only [addList, visitList]
      rw [mem_keys_addList _ cs k, mem_keys_addClass d c k]
      simp only [List.map_append, List.mem_append]
      tauto
termination_by sizeOf l

end

/-- C6: for every descriptor catalog, the registry mapping's keys are
exactly the non-empty declared names of the classes reachable from the
root by recursive subclass traversal, at any depth; and the value stored
at a non-empty name is the last-visited reachable class declaring it
(later registrations silently overwrite earlier ones; nothing fails). -/
theorem C6_registry (root : PyClass) (k : String) :
    (k ∈ keys (get_targets root) ↔
      ¬ k = "" ∧ k ∈ (reachable root).map PyClass.name) ∧
    (¬ k = "" → lookupK (get_targets root) k =
      (reachable root).reverse.find? (fun c => decide (c.name = k))) := by
  constructor
  · unfold get_targets reachable
    rw [mem_keys_addList]
    simp [keys, lookupK]
  · intro hk
    unfold get_targets reachable
    rw [lookupK_addList _ _ k hk]
    simp [lookupK]

/-- Witness for C6: in a catalog where a nested grandchild and a later
sibling both declare the name dup, the registry stores the later-visited
sibling, and the key set is the pair of non-empty names. -/
theorem C6_registry_witness :
    lookupK (get_targets catalogRoot) "dup" =
      some (PyClass.node "dup" [PyClass.node "" []]) := by
  rw [(C6_registry catalogRoot "dup").2 (by decide)]
  simp [catalogRoot, reachable, visitList, visitClass, PyClass.name,
    PyClass.subclasses, List.find?]

end Openinput
